import Mathlib

/-!
Verification of the sweep-orchestration core of the ChipShouter repository
(`src/workers/sweep_worker.py`): the exchange protocol parser
(`_target_exchange`), the baseline setup (`_setup_target_mode`), the trial
classifier, the grid construction, and the sweep engine (`start_sweep`).

The Python code is shallowly embedded: pure string processing becomes Lean
functions over `String`; the stateful engine becomes explicit state passing
over an `EngState` record, with all external effects (serial streams, device
arm/disarm outcomes, the asynchronous stop flag) supplied by a deterministic
environment (`Env`).  `time.sleep` calls have no observable effect and are
not modelled; the 3-second read budget of the exchange loop is modelled by
the finite list of lines read before the budget expires.
-/

namespace ChipShouter

/-! ## Python string primitives

`str.strip()`, the substring test `in`, and `str.split(sep, 1)` are
implemented over character lists so that all theorems can be settled by
kernel evaluation. Python strips a slightly larger whitespace set than
ASCII; the characters below cover `str.strip()` on ASCII text, which is all
the serial protocol produces. -/

def isPyWs (c : Char) : Bool :=
  c = ' ' || c = '\t' || c = '\n' || c = '\x0d' || c = '\x0b' || c = '\x0c'

/-- Python `s.strip()`. -/
def pyStrip (s : String) : String :=
  (((s.toList.dropWhile isPyWs).reverse.dropWhile isPyWs).reverse).asString

/-- Whether a character list starts with the pattern list. -/
def startsWithL : List Char → List Char → Bool
  | _, [] => true
  | [], _ :: _ => false
  | c :: cs, p :: ps => c = p && startsWithL cs ps

/-- Whether the pattern occurs as a contiguous run in the haystack. -/
def containsL (hay pat : List Char) : Bool :=
  match hay with
  | [] => pat.isEmpty
  | _ :: rest => startsWithL hay pat || containsL rest pat

/-- Python `pat in s` (substring containment). -/
def containsSubstr (s pat : String) : Bool :=
  containsL s.toList pat.toList

/-- Helper for `splitColon1`: split a character list at the first colon. -/
def splitAtColon : List Char → Option (List Char × List Char)
  | [] => none
  | c :: cs =>
    if c = ':' then some ([], cs)
    else match splitAtColon cs with
      | some (l, r) => some (c :: l, r)
      | none => none

/-- Python `s.split(":", 1)`: two parts when a colon occurs, else one. -/
def splitColon1 (s : String) : List String :=
  match splitAtColon s.toList with
  | some (l, r) => [l.asString, r.asString]
  | none => [s]

/-! ## Protocol constants (from `config.py` and `sweep_worker.py`) -/

/-- `KW45_RESET_MARKER` from `config.py`. -/
def KW45_RESET_MARKER : String := "KW45 Ready. Waiting for commands..."

def dataStartMarker : String := "--- DATA_START ---"

def dataEndMarker : String := "--- DATA_END ---"

def errorMarker : String := "ERROR:"

/-! ## Python values and dictionaries

`_target_exchange` returns either `None`, the literal dict
`{"_reset": True}`, or a dict whose values are parsed strings.  A dict is
modelled as an append-ordered association list where the *last* binding of
a key is its current value, which matches Python assignment
`data[k] = v`. -/

inductive PyVal where
  | str (s : String)
  | pyTrue
  deriving DecidableEq, Repr

/-- Python truthiness of an optional dict value (`d.get(k)`):
`None` and `""` are falsy. -/
def pyTruthy : Option PyVal → Bool
  | none => false
  | some .pyTrue => true
  | some (.str s) => s ≠ ""

/-- Render a dict value as a string; parsed values are always `.str`. -/
def PyVal.toStr : PyVal → String
  | .str s => s
  | .pyTrue => "True"

abbrev PyDict := List (String × PyVal)

/-- Current value of a key: the last binding wins, as in a Python dict. -/
def pyGet : PyDict → String → Option PyVal
  | [], _ => none
  | (k, v) :: rest, key =>
    match pyGet rest key with
    | some w => some w
    | none => if k = key then some v else none

/-- Python `data[k] = v` on the append-ordered representation. -/
def pyIns (d : PyDict) (k : String) (v : PyVal) : PyDict :=
  d ++ [(k, v)]

/-! ## The exchange protocol (`_target_exchange`, sweep_worker.py:290-327)

The stream of lines read from the serial port before the 3-second budget
expires is modelled as a finite `List String`; reaching the end of the list
is the budget expiring.  Empty reads (`if not raw: continue`) are simply
absent from the list.  A transport exception is not modelled (it returns
`None` exactly like the empty-timeout path). -/

def resetDict : PyDict := [("_reset", PyVal.pyTrue)]

/-- Classification of one stripped line by the if-chain of the read loop,
in the chain's order: blank, reset marker, `DATA_START`, `DATA_END`,
`ERROR:`, anything else. -/
inductive LineKind where
  | blank
  | reset
  | dstart
  | dend
  | derr
  | other
  deriving DecidableEq, Repr

def lineKind (line : String) : LineKind :=
  if line = "" then .blank
  else if containsSubstr line KW45_RESET_MARKER then .reset
  else if containsSubstr line dataStartMarker then .dstart
  else if containsSubstr line dataEndMarker then .dend
  else if containsSubstr line errorMarker then .derr
  else .other

/-- The `KEY:VALUE` collection branch (sweep_worker.py:321-324): when
collecting and the line has a colon, record the first-colon split with both
sides stripped. -/
def collectLine (collecting : Bool) (d : PyDict) (line : String) : PyDict :=
  if collecting && containsSubstr line ":" then
    match splitColon1 line with
    | [k, v] => pyIns d (pyStrip k) (PyVal.str (pyStrip v))
    | _ => d
  else d

/-- The read loop of `_target_exchange`, carrying `collecting` and `data`. -/
def exchangeLoop : List String → Bool → PyDict → Option PyDict
  | [], _, data => if data = [] then none else some data
  | l :: rest, collecting, data =>
    match lineKind (pyStrip l) with
    | .blank => exchangeLoop rest collecting data
    | .reset => some resetDict
    | .dstart => exchangeLoop rest true data
    | .dend => some data
    | .derr => none
    | .other => exchangeLoop rest collecting (collectLine collecting data (pyStrip l))

/-- One non-returning line's effect on the `(collecting, data)` state:
the `DATA_START` branch and the collection branch. -/
def advState (st : Bool × PyDict) (l : String) : Bool × PyDict :=
  match lineKind (pyStrip l) with
  | .dstart => (true, st.2)
  | .other => (st.1, collectLine st.1 st.2 (pyStrip l))
  | _ => st

/-- `_target_exchange`: clear input, send START, then run the read loop
from the not-collecting state with an empty dict.  `none` models Python
`None` (communication error / empty timeout). -/
def targetExchange (stream : List String) : Option PyDict :=
  exchangeLoop stream false []

/-! ## Baseline setup (`_setup_target_mode`, sweep_worker.py:272-288)

Sends `MODE:<n>`, performs one exchange (the stream for that exchange is
supplied by the environment), and returns the baseline ciphertext when the
response is a non-empty dict containing `CT` with a falsy `_reset`.
A transport exception inside the helper also yields `None` and is folded
into the stream model.  The internal log emissions are not modelled. -/

def ctOf (d : PyDict) : String :=
  match pyGet d "CT" with
  | some v => v.toStr
  | none => ""

def setupTargetMode (stream : List String) : Option String :=
  match targetExchange stream with
  | none => none
  | some d =>
      if d ≠ [] ∧ (pyGet d "CT").isSome ∧ ¬ pyTruthy (pyGet d "_reset") then
        some (ctOf d)
      else none

/-! ## Trial classifier (sweep_worker.py:210-215)

`if baseline_ct and ct and ct != baseline_ct: glitch += 1 else: normal += 1`.
`baseline_ct` is `None` or a string; Python truthiness makes `None` and `""`
classify as normal. `true` means Glitch, `false` means Normal. -/

def classify (baseline : Option String) (ct : String) : Bool :=
  match baseline with
  | none => false
  | some b => b ≠ "" && ct ≠ "" && ct ≠ b

/-! ## Grid construction (sweep_worker.py:64-104) -/

/-- Python `range(a, b, s)` for positive step `s` (all call sites pass
`max(1, step)`, so only the positive-step case is ever reached). -/
def pyRange (a b s : Int) : List Int :=
  if 0 < s ∧ a < b then
    (List.range (((b - a - 1) / s).toNat + 1)).map (fun i => a + s * i)
  else []

/-- The sweep configuration dict, after the `config.get(..., default)`
defaulting done at the top of `start_sweep`.  Fields that only feed
`time.sleep` (`pulse_interval`) or write-only device setters
(`pulse_repeat`, `deadtime`, `mode` string) are omitted because they have
no observable effect in the model. -/
structure SweepConfig where
  v_start : Int
  v_end : Int
  v_step : Int
  pw_start : Int
  pw_end : Int
  pw_step : Int
  delay_start : Int
  delay_end : Int
  delay_step : Int
  axVoltage : Bool
  axPulseWidth : Bool
  axDelay : Bool
  pulses_per_point : Nat
  deriving DecidableEq, Repr

def sweepVoltages (cfg : SweepConfig) : List Int :=
  if cfg.axVoltage then pyRange cfg.v_start (cfg.v_end + 1) (max 1 cfg.v_step)
  else [cfg.v_start]

def sweepPulseWidths (cfg : SweepConfig) : List Int :=
  if cfg.axPulseWidth then pyRange cfg.pw_start (cfg.pw_end + 1) (max 1 cfg.pw_step)
  else [cfg.pw_start]

/-- The delay axis is the only one with an empty-range substitution, and it
substitutes `[0]` (sweep_worker.py:83-94). -/
def sweepDelays (cfg : SweepConfig) : List Int :=
  if cfg.axDelay then
    let d := pyRange cfg.delay_start (cfg.delay_end + 1) (max 1 cfg.delay_step)
    if d = [] then [0] else d
  else [cfg.delay_start]

def sweepTotal (cfg : SweepConfig) : Nat :=
  (sweepVoltages cfg).length * (sweepPulseWidths cfg).length * (sweepDelays cfg).length

/-! ## Device interaction outcomes

Each `try` block around device setters is abstracted by an oracle outcome:
success, a `Reset_Exception`, or any other exception. -/

inductive ArmAttempt where
  | ok
  | resetExc
  | err
  deriving DecidableEq, Repr

/-- `_try_clear_and_arm` (sweep_worker.py:340-360): up to 3 attempts;
success returns `True`, a `Reset_Exception` returns `False` immediately,
any other exception retries; all 3 failing returns `False`.
The argument gives the outcome of each attempt. Log emissions omitted. -/
def tryClearAndArm (att : Nat → ArmAttempt) : Bool :=
  match att 0 with
  | .ok => true
  | .resetExc => false
  | .err =>
    match att 1 with
    | .ok => true
    | .resetExc => false
    | .err =>
      match att 2 with
      | .ok => true
      | .resetExc => false
      | .err => false

inductive ParamOut where
  | ok
  | resetExc
  | err
  deriving DecidableEq, Repr

/-! ## Engine state, events and environment -/

/-- One emitted `result_signal` payload (the per-point result dict,
sweep_worker.py:218-232). -/
structure PointResult where
  voltage : Int
  pulse_width : Int
  delay_us : Int
  glitches : Nat
  errors : Nat
  normal : Nat
  resets : Nat
  total : Nat
  baseline_ct : String
  last_ct : String
  rate : String
  deriving DecidableEq, Repr

/-- Glitch-rate string `f"{g / tot * 100:.1f}%"` for `tot > 0`, else `"0%"`.
The float formatting is modelled by exact rounding (half to even) of
`1000 * g / tot` to a tenth of a percent; double rounding of the binary
float can differ on exact-representation edge cases, none of which any
claim depends on. -/
def rateStr (g tot : Nat) : String :=
  if tot = 0 then "0%"
  else
    let q := 1000 * g / tot
    let r := 1000 * g % tot
    let x := if tot < 2 * r then q + 1
             else if 2 * r < tot then q
             else if q % 2 = 1 then q + 1 else q
    toString (x / 10) ++ "." ++ toString (x % 10) ++ "%"

/-- The observable emissions and device calls of a run, structured by the
signal/log they stand for (payloads are the f-string arguments). -/
inductive Event where
  | logNoSerial
  | aborted
  | warnNoBaseline
  | disarm
  | csResetSkip (v pw : Int)
  | configError (v pw : Int)
  | warnNoTriggerOffset
  | armFailedSkip (v pw : Int)
  | resetLog (n : Nat) (v pw d : Int) (pulseNo : Nat)
  | newBaseline (b : String)
  | result (r : PointResult)
  | progress (step total : Nat) (v pw d : Int) (tag : String)
      (g rs e n : Nat)
  | finished (tag : String) (step total totalG sensitive totalR : Nat)
  deriving DecidableEq, Repr

/-- Engine-owned mutable state of one run. The `Idx` counters index the
environment oracles: how many exchanges / setups / clear-and-arms /
parameter programmings / stop-flag reads have happened so far. -/
structure EngState where
  events : List Event
  results : List PointResult
  resetCount : Nat
  baseline : Option String
  warnedNoTrigger : Bool
  setupIdx : Nat
  trialIdx : Nat
  armIdx : Nat
  paramIdx : Nat
  checkIdx : Nat
  step : Nat
  deriving DecidableEq, Repr

def initState : EngState :=
  ⟨[], [], 0, none, false, 0, 0, 0, 0, 0, 0⟩

/-- Per-point trial counters plus `last_ct` (locals of the pulse loop). -/
structure TrialCounters where
  glitch : Nat
  error : Nat
  normal : Nat
  reset : Nat
  last_ct : String
  deriving DecidableEq, Repr

def zeroCounters : TrialCounters := ⟨0, 0, 0, 0, ""⟩

/-- Deterministic environment for one run: every external interaction is
an oracle indexed by its call number.  `stopAt = some m` means the
asynchronous `stop_sweep` flag becomes (and stays) true from the `m`-th
read of `_stop_requested` onward; `none` means stop is never requested. -/
structure Env where
  serialOpen : Bool
  hasTriggerOffset : Bool
  stopAt : Option Nat
  setupStream : Nat → List String
  trialStream : Nat → List String
  armAttempt : Nat → Nat → ArmAttempt
  paramOutcome : Nat → ParamOut

/-- Value of the stop flag at the `t`-th read (set-once, monotone). -/
def stopFlag (env : Env) (t : Nat) : Bool :=
  match env.stopAt with
  | none => false
  | some m => m ≤ t

/-- One read of `self._stop_requested`: returns the flag and consumes a
read tick. -/
def readStop (env : Env) (s : EngState) : Bool × EngState :=
  (stopFlag env s.checkIdx, { s with checkIdx := s.checkIdx + 1 })

def emit (s : EngState) (e : Event) : EngState :=
  { s with events := s.events ++ [e] }

/-! ## The trial loop (sweep_worker.py:180-215) -/

/-- Outcome of one pulse-loop iteration body: continue to the next trial,
or break out of the pulse loop (reset followed by failed re-arm). -/
inductive TrialStepOut where
  | cont (c : TrialCounters) (s : EngState)
  | brk (c : TrialCounters) (s : EngState)
  deriving DecidableEq, Repr

/-- The reset-recovery block of the pulse loop (sweep_worker.py:194-207):
bump the run's cumulative reset counter, emit the reset notification,
re-run the target baseline step (adopting the new baseline only when it is
a truthy string), and attempt clear-and-arm again; returns whether the
re-arm succeeded together with the updated state. -/
def resetRecover (env : Env) (v pw d : Int) (pulseIdx : Nat)
    (s : EngState) : Bool × EngState :=
  let s := { s with resetCount := s.resetCount + 1 }
  let s := emit s (.resetLog s.resetCount v pw d (pulseIdx + 1))
  let newBl := setupTargetMode (env.setupStream s.setupIdx)
  let s := { s with setupIdx := s.setupIdx + 1 }
  let s :=
    match newBl with
    | some b =>
        if b ≠ "" then emit { s with baseline := some b } (.newBaseline b)
        else s
    | none => s
  let armOk := tryClearAndArm (env.armAttempt s.armIdx)
  (armOk, { s with armIdx := s.armIdx + 1 })

/-- The body of one pulse-loop iteration after the stop check and the
inter-pulse sleep (sweep_worker.py:187-215): perform one exchange, then
dispatch on error / reset / classification. -/
def trialStep (env : Env) (v pw d : Int) (pulseIdx : Nat)
    (c : TrialCounters) (s : EngState) : TrialStepOut :=
  let stream := env.trialStream s.trialIdx
  let s := { s with trialIdx := s.trialIdx + 1 }
  match targetExchange stream with
  | none => .cont { c with error := c.error + 1 } s
  | some resp =>
    if pyTruthy (pyGet resp "_reset") then
      let c := { c with reset := c.reset + 1 }
      let p := resetRecover env v pw d pulseIdx s
      if p.1 then .cont c p.2 else .brk c p.2
    else
      let ct := ctOf resp
      let c := { c with last_ct := ct }
      if classify s.baseline ct then .cont { c with glitch := c.glitch + 1 } s
      else .cont { c with normal := c.normal + 1 } s

/-- The pulse loop `for pulse_idx in range(n_pulses)`: a stop check at the
top of every iteration, then the trial body. -/
def trialLoop (env : Env) (v pw d : Int) :
    Nat → Nat → TrialCounters → EngState → TrialCounters × EngState
  | 0, _, c, s => (c, s)
  | rem + 1, pulseIdx, c, s =>
    let p := readStop env s
    if p.1 then (c, p.2)
    else
      match trialStep env v pw d pulseIdx c p.2 with
      | .cont c1 s2 => trialLoop env v pw d rem (pulseIdx + 1) c1 s2
      | .brk c1 s2 => (c1, s2)

/-! ## Per-point body and the three nested grid loops
(sweep_worker.py:129-251) -/

/-- The per-point result dict (sweep_worker.py:217-232). -/
def mkPointResult (v pw d : Int) (c : TrialCounters) (baseline : Option String) :
    PointResult :=
  let tot := c.glitch + c.error + c.normal + c.reset
  { voltage := v, pulse_width := pw, delay_us := d,
    glitches := c.glitch, errors := c.error, normal := c.normal,
    resets := c.reset, total := tot,
    baseline_ct := baseline.getD "", last_ct := c.last_ct,
    rate := rateStr c.glitch tot }

/-- Progress tag, priority glitch > reset > error > normal
(sweep_worker.py:236-244). -/
def tagOf (c : TrialCounters) : String :=
  if 0 < c.glitch then "GLITCH"
  else if 0 < c.reset then "RESET"
  else if 0 < c.error then "ERROR"
  else "Normal"

/-- The armed part of one grid-point iteration
(sweep_worker.py:174-251): run the pulse loop, aggregate the counters into
a `PointResult`, append it, and emit the result and progress events. -/
def pointFire (env : Env) (nPulses total : Nat) (v pw d : Int)
    (s : EngState) : EngState :=
  let p := trialLoop env v pw d nPulses 0 zeroCounters s
  let c := p.1
  let s := p.2
  let r := mkPointResult v pw d c s.baseline
  let s := { s with results := s.results ++ [r] }
  let s := emit s (.result r)
  emit s (.progress s.step total v pw d (tagOf c) c.glitch c.reset c.error c.normal)

/-- One grid-point iteration (sweep_worker.py:139-251): bump step, disarm,
program parameters, clear-and-arm, then `pointFire`.  A parameter
exception or an arm failure abandons the point (`continue`). -/
def pointBody (env : Env) (nPulses total : Nat) (v pw d : Int)
    (s : EngState) : EngState :=
  let s := { s with step := s.step + 1 }
  let s := emit s .disarm
  let pOut := env.paramOutcome s.paramIdx
  let s := { s with paramIdx := s.paramIdx + 1 }
  match pOut with
  | .resetExc => emit s (.csResetSkip v pw)
  | .err => emit s (.configError v pw)
  | .ok =>
    let s :=
      if 0 < d && !env.hasTriggerOffset && !s.warnedNoTrigger then
        emit { s with warnedNoTrigger := true } .warnNoTriggerOffset
      else s
    let armOk := tryClearAndArm (env.armAttempt s.armIdx)
    let s := { s with armIdx := s.armIdx + 1 }
    if !armOk then emit s (.armFailedSkip v pw)
    else pointFire env nPulses total v pw d s

/-- Innermost `for delay_us in delays` loop, stop check at iteration top. -/
def delayLoop (env : Env) (nPulses total : Nat) (v pw : Int) :
    List Int → EngState → EngState
  | [], s => s
  | d :: rest, s =>
    let p := readStop env s
    if p.1 then p.2
    else delayLoop env nPulses total v pw rest (pointBody env nPulses total v pw d p.2)

/-- Middle `for pw in pulse_widths` loop. -/
def pwLoop (env : Env) (nPulses total : Nat) (v : Int) (ds : List Int) :
    List Int → EngState → EngState
  | [], s => s
  | pw :: rest, s =>
    let p := readStop env s
    if p.1 then p.2
    else pwLoop env nPulses total v ds rest (delayLoop env nPulses total v pw ds p.2)

/-- Outermost `for v in voltages` loop. -/
def vLoop (env : Env) (nPulses total : Nat) (pws ds : List Int) :
    List Int → EngState → EngState
  | [], s => s
  | v :: rest, s =>
    let p := readStop env s
    if p.1 then p.2
    else vLoop env nPulses total pws ds rest (pwLoop env nPulses total v ds pws p.2)

/-! ## Finalization and the whole run (sweep_worker.py:40-264) -/

/-- Cleanup (sweep_worker.py:253-264): unconditional disarm, summary
computed from the accumulated results, terminal event tagged by a final
read of the stop flag. -/
def finalize (env : Env) (total : Nat) (s : EngState) : EngState :=
  let s := emit s .disarm
  let totalG := (s.results.map (fun r => r.glitches)).sum
  let totalR := (s.results.map (fun r => r.resets)).sum
  let sensitive := (s.results.filter (fun r => 0 < r.glitches)).length
  let p := readStop env s
  let tag := if p.1 then "STOPPED" else "COMPLETE"
  emit p.2 (.finished tag p.2.step total totalG sensitive totalR)

/-- The run-entry phase of `start_sweep` (lines 122-127): perform the
target baseline setup and, when Python's short-circuit
`baseline_ct is None and not self._stop_requested` reads the stop flag,
emit the missing-baseline warning.  The fixed-parameter programming and
the initial fault clear (lines 106-120) only touch the device and logs
and are not modelled. -/
def startEntry (env : Env) : EngState :=
  let bl := setupTargetMode (env.setupStream 0)
  let s := { initState with baseline := bl, setupIdx := 1 }
  match bl with
  | none =>
    let p := readStop env s
    if !p.1 then emit p.2 .warnNoBaseline else p.2
  | some _ => s

/-- `start_sweep`: precondition check, grid construction, baseline setup,
the grid loops, and finalization. -/
def startSweep (env : Env) (cfg : SweepConfig) : EngState :=
  if !env.serialOpen then emit (emit initState .logNoSerial) .aborted
  else
    finalize env (sweepTotal cfg)
      (vLoop env cfg.pulses_per_point (sweepTotal cfg) (sweepPulseWidths cfg)
        (sweepDelays cfg) (sweepVoltages cfg) (startEntry env))

/-! ## Spec-side descriptions used to state the claims -/

/-- A stream line that cannot cause `exchangeLoop` to return: blank, or a
`DATA_START` line without the reset marker, or a line free of all of the
reset / `DATA_END` / `ERROR:` markers.  This is a property of the line
alone, independent of the parser state. -/
def lineNonReturning (l : String) : Bool :=
  match lineKind (pyStrip l) with
  | .blank | .dstart | .other => true
  | _ => false

/-- A line the collecting state records: non-blank after stripping and
containing a colon. -/
def isKvLine (l : String) : Bool :=
  pyStrip l ≠ "" && containsSubstr (pyStrip l) ":"

/-- The key of a KEY:VALUE line: split the stripped line on the first
colon, strip the left part. -/
def kvKey (l : String) : String :=
  pyStrip ((splitColon1 (pyStrip l)).headD "")

/-- The value of a KEY:VALUE line: the right part of the first-colon
split, stripped. -/
def kvVal (l : String) : String :=
  pyStrip ((splitColon1 (pyStrip l)).getD 1 "")

/-- Modelled from the spec: the mapping the spec describes for a block of
collected lines — each KEY:VALUE line (split on the first colon, both
sides trimmed) is recorded, a repeated key is overwritten by its last
occurrence, blank and colon-free lines are skipped. -/
def specLookup : List String → String → Option String
  | [], _ => none
  | l :: rest, k =>
    match specLookup rest k with
    | some v => some v
    | none => if isKvLine l && kvKey l == k then some (kvVal l) else none

/-- Sum of the four per-point outcome counters. -/
def counterSum (c : TrialCounters) : Nat :=
  c.glitch + c.error + c.normal + c.reset

def TrialStepOut.counters : TrialStepOut → TrialCounters
  | .cont c _ => c
  | .brk c _ => c

def TrialStepOut.state : TrialStepOut → EngState
  | .cont _ s => s
  | .brk _ s => s

/-- The `PointResult` payloads of the `result_signal` emissions, in
emission order. -/
def resultEvents (es : List Event) : List PointResult :=
  es.filterMap fun e =>
    match e with
    | .result r => some r
    | _ => none

/-! ## Concrete instances used by witnesses and counterexamples -/

/-- A well-formed three-line baseline/trial response with `CT:AABBCC`. -/
def ctStream : List String := ["--- DATA_START ---", "CT:AABBCC", "--- DATA_END ---"]

/-- Voltage axis active with `v_end < v_start`: its range list is empty. -/
def cexCfgVoltage : SweepConfig :=
  { v_start := 10, v_end := 5, v_step := 1, pw_start := 160, pw_end := 160,
    pw_step := 40, delay_start := 0, delay_end := 0, delay_step := 1,
    axVoltage := true, axPulseWidth := false, axDelay := false,
    pulses_per_point := 5 }

/-- Delay axis active with `delay_end < delay_start = 5`: its range list is
empty and the substituted list is `[0]`, not `[5]`. -/
def cexCfgDelay : SweepConfig :=
  { v_start := 300, v_end := 300, v_step := 50, pw_start := 160, pw_end := 160,
    pw_step := 40, delay_start := 5, delay_end := 3, delay_step := 1,
    axVoltage := false, axPulseWidth := false, axDelay := true,
    pulses_per_point := 5 }

/-- A 6-point grid (3 voltages x 2 pulse widths), one pulse per point. -/
def wCfgSix : SweepConfig :=
  { v_start := 1, v_end := 3, v_step := 1, pw_start := 1, pw_end := 2,
    pw_step := 1, delay_start := 0, delay_end := 0, delay_step := 1,
    axVoltage := true, axPulseWidth := true, axDelay := false,
    pulses_per_point := 1 }

/-- Environment for the 6-point grid where stop is requested so that it is
first observed at the outer-loop check right after the second point
completes (the 8th read of the flag). -/
def wEnvStop : Env :=
  { serialOpen := true, hasTriggerOffset := true, stopAt := some 7,
    setupStream := fun _ => ctStream,
    trialStream := fun _ => ctStream,
    armAttempt := fun _ _ => .ok,
    paramOutcome := fun _ => .ok }

/-- Single-point configuration used by the invariant witness. -/
def wCfgOne : SweepConfig :=
  { v_start := 300, v_end := 300, v_step := 50, pw_start := 160, pw_end := 160,
    pw_step := 40, delay_start := 0, delay_end := 0, delay_step := 1,
    axVoltage := true, axPulseWidth := true, axDelay := false,
    pulses_per_point := 2 }

/-- Environment whose every trial exchange times out empty (the stream has
no lines), so each trial counts as an error. -/
def wEnvErr : Env :=
  { serialOpen := true, hasTriggerOffset := true, stopAt := none,
    setupStream := fun _ => ctStream,
    trialStream := fun _ => [],
    armAttempt := fun _ _ => .ok,
    paramOutcome := fun _ => .ok }

/-- Environment whose trial exchanges hit the reset marker and whose
post-reset clear-and-arm raises `Reset_Exception` on every attempt. -/
def wEnvReset : Env :=
  { serialOpen := true, hasTriggerOffset := true, stopAt := none,
    setupStream := fun _ => ctStream,
    trialStream := fun _ => ["KW45 Ready. Waiting for commands..."],
    armAttempt := fun k _ => if k = 0 then .ok else .resetExc,
    paramOutcome := fun _ => .ok }

/-- A DATA block carrying a literal `_reset:1` key-value line and no reset
marker anywhere. -/
def resetKeyStream : List String := ["--- DATA_START ---", "_reset:1", "--- DATA_END ---"]

/-- Environment whose trial exchanges return the `resetKeyStream` block. -/
def wEnvResetKey : Env :=
  { serialOpen := true, hasTriggerOffset := true, stopAt := none,
    setupStream := fun _ => ctStream,
    trialStream := fun _ => resetKeyStream,
    armAttempt := fun _ _ => .ok,
    paramOutcome := fun _ => .ok }

/-- A state one clear-and-arm call into a run, so that the next
clear-and-arm consults `armAttempt 1`. -/
def wStateArm1 : EngState := { initState with armIdx := 1 }

/-! # Theorems

## Line classification helpers -/

theorem lineKind_eq_blank {line : String} (h : lineKind line = LineKind.blank) :
    line = "" := by
  unfold lineKind at h
  split at h
  · assumption
  · split at h
    · simp at h
    · split at h
      · simp at h
      · split at h
        · simp at h
        · split at h <;> simp at h

theorem lineKind_of_no_markers {line : String}
    (h1 : containsSubstr line KW45_RESET_MARKER = false)
    (h2 : containsSubstr line dataStartMarker = false)
    (h3 : containsSubstr line dataEndMarker = false)
    (h4 : containsSubstr line errorMarker = false) :
    lineKind line = LineKind.blank ∨ lineKind line = LineKind.other := by
  unfold lineKind
  by_cases h0 : line = ""
  · left
    simp [h0]
  · right
    simp [h0, h1, h2, h3, h4]

theorem lineNonReturning_of_kind {l : String}
    (h : lineKind (pyStrip l) = LineKind.blank ∨
      lineKind (pyStrip l) = LineKind.other) :
    lineNonReturning l = true := by
  unfold lineNonReturning
  rcases h with h | h <;> rw [h]

theorem lineNonReturning_of_no_end {l : String}
    (h1 : containsSubstr (pyStrip l) KW45_RESET_MARKER = false)
    (h3 : containsSubstr (pyStrip l) dataEndMarker = false)
    (h4 : containsSubstr (pyStrip l) errorMarker = false) :
    lineNonReturning l = true := by
  unfold lineNonReturning lineKind
  by_cases h0 : pyStrip l = ""
  · simp [h0]
  · by_cases h2 : containsSubstr (pyStrip l) dataStartMarker = true
    · simp [h0, h1, h2]
    · simp [h0, h1, h2, h3, h4]

/-! ## Consuming non-returning lines -/

theorem exchangeLoop_cons_nonret (l : String) (rest : List String)
    (c : Bool) (d : PyDict) (h : lineNonReturning l = true) :
    exchangeLoop (l :: rest) c d =
      exchangeLoop rest (advState (c, d) l).1 (advState (c, d) l).2 := by
  unfold lineNonReturning at h
  cases hk : lineKind (pyStrip l) <;> rw [hk] at h <;>
    simp [exchangeLoop, advState, hk] at h ⊢

theorem exchangeLoop_append_nonret (pre : List String) (rest : List String)
    (c : Bool) (d : PyDict) (h : ∀ x ∈ pre, lineNonReturning x = true) :
    exchangeLoop (pre ++ rest) c d =
      exchangeLoop rest (pre.foldl advState (c, d)).1
        (pre.foldl advState (c, d)).2 := by
  induction pre generalizing c d with
  | nil => simp
  | cons l tl ih =>
    have hl := h l (by simp)
    have htl : ∀ x ∈ tl, lineNonReturning x = true := fun x hx => h x (by simp [hx])
    rw [List.cons_append, exchangeLoop_cons_nonret l (tl ++ rest) c d hl,
      List.foldl_cons]
    exact ih (advState (c, d) l).1 (advState (c, d) l).2 htl

/-! ## Claim C2 — the reset marker supersedes all other parsing state -/

/-- Claim C2: whenever the exchange reads a line containing the target
reset marker — every earlier line of the stream being one that does not
end the exchange — `_target_exchange` returns the reset indication
`{"_reset": True}`, whatever else the stream (including `DATA_START` and
`DATA_END` markers) contains before or after. -/
theorem exchange_reset_supersedes (pre : List String) (l : String)
    (post : List String)
    (hpre : ∀ x ∈ pre, lineNonReturning x = true)
    (hl : containsSubstr (pyStrip l) KW45_RESET_MARKER = true) :
    targetExchange (pre ++ l :: post) = some resetDict := by
  unfold targetExchange
  rw [exchangeLoop_append_nonret pre (l :: post) false [] hpre]
  have hne : pyStrip l ≠ "" := by
    intro he
    rw [he] at hl
    exact absurd hl (by decide)
  have hk : lineKind (pyStrip l) = LineKind.reset := by
    unfold lineKind
    rw [if_neg hne, if_pos hl]
  simp [exchangeLoop, hk]

/-- Witness for C2: a stream whose `DATA_START`, a collected pair, and a
`DATA_END` all surround a reset-marker line; the exchange still returns
the reset indication. -/
theorem exchange_reset_supersedes_witness :
    targetExchange ["--- DATA_START ---", "CT:AA",
      "boot: KW45 Ready. Waiting for commands...", "--- DATA_END ---"] =
      some resetDict :=
  exchange_reset_supersedes ["--- DATA_START ---", "CT:AA"]
    "boot: KW45 Ready. Waiting for commands..." ["--- DATA_END ---"]
    (by decide) (by decide)

/-! ## Claim C4 — ERROR: aborts the exchange, with marker-precedence
exceptions -/

/-- Counterexample to claim C4 as stated: two streams that contain a line
with the substring `ERROR:` before any `DATA_END` line and with no reset
marker *before* that line, yet the exchange does not return `CommError`
(`None`): a line carrying both `DATA_START` and `ERROR:` is consumed by
the `DATA_START` branch (the exchange then returns the empty mapping at
`DATA_END`), and a line carrying both the reset marker and `ERROR:` is
consumed by the reset branch. -/
theorem claim_c4_counterexample :
    (containsSubstr (pyStrip "--- DATA_START --- ERROR:1") errorMarker = true ∧
      (∀ l ∈ ["--- DATA_START --- ERROR:1", "--- DATA_END ---"],
        containsSubstr (pyStrip l) KW45_RESET_MARKER = false) ∧
      targetExchange ["--- DATA_START --- ERROR:1", "--- DATA_END ---"] =
        some []) ∧
    (containsSubstr (pyStrip "KW45 Ready. Waiting for commands... ERROR:2")
        errorMarker = true ∧
      targetExchange ["KW45 Ready. Waiting for commands... ERROR:2"] =
        some resetDict) := by
  constructor
  · exact ⟨by decide, by decide, by decide⟩
  · exact ⟨by decide, by decide⟩

/-- Claim C4 (amended): if the exchange reads a line containing `ERROR:`
that does not itself contain the reset marker, the `DATA_START` marker or
the `DATA_END` marker — every earlier line being non-returning, which
rules out a prior reset marker, `DATA_END` or `ERROR:` return — then the
exchange returns `CommError` (`None`) and any accumulated pairs are
discarded, never a mapping. -/
theorem exchange_error_aborts (pre : List String) (l : String)
    (post : List String)
    (hpre : ∀ x ∈ pre, lineNonReturning x = true)
    (herr : containsSubstr (pyStrip l) errorMarker = true)
    (hm : containsSubstr (pyStrip l) KW45_RESET_MARKER = false)
    (hs : containsSubstr (pyStrip l) dataStartMarker = false)
    (he : containsSubstr (pyStrip l) dataEndMarker = false) :
    targetExchange (pre ++ l :: post) = none := by
  unfold targetExchange
  rw [exchangeLoop_append_nonret pre (l :: post) false [] hpre]
  have hne : pyStrip l ≠ "" := by
    intro h0
    rw [h0] at herr
    exact absurd herr (by decide)
  have hk : lineKind (pyStrip l) = LineKind.derr := by
    unfold lineKind
    simp [hne, hm, hs, he, herr]
  simp [exchangeLoop, hk]

/-- Witness for the amended C4: pairs already collected are discarded when
the `ERROR:` line arrives. -/
theorem exchange_error_aborts_witness :
    targetExchange ["--- DATA_START ---", "CT:AA", "ERROR:77",
      "--- DATA_END ---"] = none :=
  exchange_error_aborts ["--- DATA_START ---", "CT:AA"] "ERROR:77"
    ["--- DATA_END ---"] (by decide) (by decide) (by decide) (by decide)
    (by decide)

/-! ## Claim C3 — well-formed exchanges return exactly the described
mapping -/

theorem pyGet_pyIns (d : PyDict) (k : String) (v : PyVal) (key : String) :
    pyGet (pyIns d k v) key = if k = key then some v else pyGet d key := by
  induction d with
  | nil =>
    simp only [pyIns, List.nil_append, pyGet]
  | cons kv tl ih =>
    obtain ⟨k1, v1⟩ := kv
    simp only [pyIns, List.cons_append] at ih ⊢
    simp only [pyGet, ih]
    by_cases hk : k = key
    · simp [hk]
    · simp [hk]

theorem splitAtColon_isSome_of_contains (cs : List Char)
    (h : containsL cs [':'] = true) : (splitAtColon cs).isSome = true := by
  induction cs with
  | nil => simp [containsL] at h
  | cons c tl ih =>
    by_cases hc : c = ':'
    · simp [splitAtColon, hc]
    · simp only [containsL, startsWithL, Bool.or_eq_true, Bool.and_eq_true,
        decide_eq_true_eq] at h
      rcases h with ⟨he, _⟩ | h
      · exact absurd he hc
      · have := ih h
        unfold splitAtColon
        rw [if_neg hc]
        cases hs : splitAtColon tl with
        | some p => simp
        | none => rw [hs] at this; simp at this

/-- A line containing a colon splits into exactly two parts,
as with Python `line.split(":", 1)`. -/
theorem splitColon1_two_parts (line : String)
    (h : containsSubstr line ":" = true) :
    ∃ a b, splitColon1 line = [a, b] := by
  unfold containsSubstr at h
  have : (":" : String).toList = [':'] := by decide
  rw [this] at h
  have hs := splitAtColon_isSome_of_contains line.toList h
  unfold splitColon1
  cases hp : splitAtColon line.toList with
  | none => rw [hp] at hs; simp at hs
  | some p =>
    obtain ⟨a, b⟩ := p
    exact ⟨a.asString, b.asString, rfl⟩

theorem lineKind_other_facts {line : String}
    (h : lineKind line = LineKind.other) :
    line ≠ "" ∧ containsSubstr line KW45_RESET_MARKER = false ∧
      containsSubstr line dataStartMarker = false ∧
      containsSubstr line dataEndMarker = false ∧
      containsSubstr line errorMarker = false := by
  unfold lineKind at h
  split at h
  · simp at h
  · split at h
    · simp at h
    · split at h
      · simp at h
      · split at h
        · simp at h
        · split at h
          · simp at h
          · rename_i h0 h1 h2 h3 h4
            exact ⟨h0, by simpa using h1, by simpa using h2, by simpa using h3,
              by simpa using h4⟩

/-- Folding `advState` from the collecting state computes exactly the
mapping described by the spec (`specLookup`): last occurrence of a key
wins, blank and colon-free lines are skipped. -/
theorem foldl_advState_lookup (body : List String) (d : PyDict)
    (hbody : ∀ l ∈ body, lineKind (pyStrip l) = LineKind.blank ∨
      lineKind (pyStrip l) = LineKind.other) :
    (body.foldl advState (true, d)).1 = true ∧
    ∀ key, pyGet (body.foldl advState (true, d)).2 key =
      match specLookup body key with
      | some v => some (PyVal.str v)
      | none => pyGet d key := by
  induction body generalizing d with
  | nil => simp [specLookup]
  | cons l tl ih =>
    have hl := hbody l (by simp)
    have htl : ∀ x ∈ tl, lineKind (pyStrip x) = LineKind.blank ∨
        lineKind (pyStrip x) = LineKind.other :=
      fun x hx => hbody x (by simp [hx])
    rw [List.foldl_cons]
    rcases hl with hb | ho
    · have hblank := lineKind_eq_blank hb
      have hadv : advState (true, d) l = (true, d) := by
        unfold advState
        rw [hb]
      have hskip : isKvLine l = false := by
        simp [isKvLine, hblank]
      rw [hadv]
      refine ⟨(ih d htl).1, fun key => ?_⟩
      rw [(ih d htl).2 key]
      simp only [specLookup, hskip, Bool.false_and]
      cases specLookup tl key <;> simp
    · obtain ⟨hne, _, _, _, _⟩ := lineKind_other_facts ho
      by_cases hc : containsSubstr (pyStrip l) ":" = true
      · obtain ⟨a, b, hab⟩ := splitColon1_two_parts (pyStrip l) hc
        have hadv : advState (true, d) l =
            (true, pyIns d (pyStrip a) (PyVal.str (pyStrip b))) := by
          unfold advState collectLine
          rw [ho]
          simp [hc, hab]
        have hkv : isKvLine l = true := by
          simp [isKvLine, hne, hc]
        have hkey : kvKey l = pyStrip a := by
          simp [kvKey, hab]
        have hval : kvVal l = pyStrip b := by
          simp [kvVal, hab]
        rw [hadv]
        refine ⟨(ih _ htl).1, fun key => ?_⟩
        rw [(ih _ htl).2 key]
        simp only [specLookup, hkv, Bool.true_and, hkey, hval]
        cases hrest : specLookup tl key with
        | some v => simp
        | none =>
          simp only [pyGet_pyIns]
          by_cases hk : pyStrip a = key
          · simp [hk]
          · simp [hk, beq_iff_eq]
      · have hadv : advState (true, d) l = (true, d) := by
          unfold advState collectLine
          rw [ho]
          simp [hc]
        have hskip : isKvLine l = false := by
          simp only [isKvLine, Bool.and_eq_false_iff]
          right
          simpa using hc
        rw [hadv]
        refine ⟨(ih d htl).1, fun key => ?_⟩
        rw [(ih d htl).2 key]
        simp only [specLookup, hskip, Bool.false_and]
        cases specLookup tl key <;> simp

/-- Claim C3: a well-formed exchange — a `DATA_START` line, body lines
free of all markers and of `ERROR:`, a `DATA_END` line — returns exactly
the mapping that takes each trimmed KEY (first-colon split) to its trimmed
VALUE, a repeated key overwritten by its last occurrence, blank lines
ignored and colon-free lines silently skipped. -/
theorem exchange_wellformed_mapping (body : List String)
    (hbody : ∀ l ∈ body,
      containsSubstr (pyStrip l) KW45_RESET_MARKER = false ∧
      containsSubstr (pyStrip l) dataStartMarker = false ∧
      containsSubstr (pyStrip l) dataEndMarker = false ∧
      containsSubstr (pyStrip l) errorMarker = false) :
    targetExchange (dataStartMarker :: body ++ [dataEndMarker]) =
      some (body.foldl advState (true, ([] : PyDict))).2 ∧
    ∀ key, pyGet (body.foldl advState (true, ([] : PyDict))).2 key =
      (specLookup body key).map PyVal.str := by
  have hkinds : ∀ l ∈ body, lineKind (pyStrip l) = LineKind.blank ∨
      lineKind (pyStrip l) = LineKind.other := by
    intro l hlmem
    obtain ⟨h1, h2, h3, h4⟩ := hbody l hlmem
    exact lineKind_of_no_markers h1 h2 h3 h4
  have hnr : ∀ l ∈ body, lineNonReturning l = true :=
    fun l hlmem => lineNonReturning_of_kind (hkinds l hlmem)
  obtain ⟨-, hget⟩ := foldl_advState_lookup body [] hkinds
  constructor
  · unfold targetExchange
    have hstart : lineKind (pyStrip dataStartMarker) = LineKind.dstart := by
      decide
    rw [List.cons_append]
    simp only [exchangeLoop, hstart]
    rw [exchangeLoop_append_nonret body [dataEndMarker] true [] hnr]
    have hend : lineKind (pyStrip dataEndMarker) = LineKind.dend := by decide
    simp [exchangeLoop, hend]
  · intro key
    rw [hget key]
    cases specLookup body key <;> simp [pyGet]

/-- Witness for C3 on a body with a repeated key, a blank line and a
colon-free line. -/
theorem exchange_wellformed_mapping_witness :
    (targetExchange (dataStartMarker ::
        ["CT: AB ", "", "noise", "K:1", "K:2"] ++ [dataEndMarker]) =
      some ((["CT: AB ", "", "noise", "K:1", "K:2"] : List String).foldl
        advState (true, ([] : PyDict))).2) ∧
    pyGet ((["CT: AB ", "", "noise", "K:1", "K:2"] : List String).foldl
        advState (true, ([] : PyDict))).2 "K" = some (PyVal.str "2") := by
  have h := exchange_wellformed_mapping
    ["CT: AB ", "", "noise", "K:1", "K:2"] (by decide)
  exact ⟨h.1, by rw [h.2 "K"]; decide⟩

/-! ## Claim C5 — timeout returns the accumulated mapping, else CommError -/

/-- Claim C5: when the read budget expires (the stream ends) before any
`DATA_END` line, with no reset marker and no `ERROR:` line read, the
exchange returns the accumulated mapping when it is non-empty and
`CommError` (`None`) when it is empty.  The 3-second total budget is
modelled by the finite stream of lines read before it expires. -/
theorem exchange_timeout_result (lines : List String)
    (h : ∀ l ∈ lines,
      containsSubstr (pyStrip l) KW45_RESET_MARKER = false ∧
      containsSubstr (pyStrip l) dataEndMarker = false ∧
      containsSubstr (pyStrip l) errorMarker = false) :
    targetExchange lines =
      if (lines.foldl advState (false, ([] : PyDict))).2 = [] then none
      else some (lines.foldl advState (false, ([] : PyDict))).2 := by
  have hnr : ∀ l ∈ lines, lineNonReturning l = true := fun l hlmem =>
    lineNonReturning_of_no_end (h l hlmem).1 (h l hlmem).2.1 (h l hlmem).2.2
  unfold targetExchange
  rw [show lines = lines ++ [] by simp,
    exchangeLoop_append_nonret lines [] false [] hnr]
  simp [exchangeLoop]

/-- Witness for C5, both branches: a stream that collected one pair
returns it; a stream that collected nothing returns `None`. -/
theorem exchange_timeout_result_witness :
    targetExchange ["--- DATA_START ---", "K:1"] =
      some [("K", PyVal.str "1")] ∧
    targetExchange ["--- DATA_START ---", ""] = none := by
  constructor
  · rw [exchange_timeout_result ["--- DATA_START ---", "K:1"] (by decide)]
    decide
  · rw [exchange_timeout_result ["--- DATA_START ---", ""] (by decide)]
    decide

/-! ## Claim C1 — empty-range substitution in grid construction -/

/-- Counterexample to claim C1 as stated: an active voltage axis whose
`range(start, end+1, step)` is empty gets no substitution — the level
list stays empty and the total point count is zero — and the delay axis,
the only one with a substitution, substitutes `[0]`, not
`[delay_start]`. -/
theorem claim_c1_counterexample :
    (cexCfgVoltage.axVoltage = true ∧
      cexCfgVoltage.v_end < cexCfgVoltage.v_start ∧
      sweepVoltages cexCfgVoltage = [] ∧
      sweepTotal cexCfgVoltage = 0) ∧
    (cexCfgDelay.axDelay = true ∧
      cexCfgDelay.delay_end < cexCfgDelay.delay_start ∧
      sweepDelays cexCfgDelay = [0] ∧
      sweepDelays cexCfgDelay ≠ [cexCfgDelay.delay_start]) := by
  refine ⟨⟨rfl, by decide, ?_, ?_⟩, ⟨rfl, by decide, ?_, ?_⟩⟩ <;> decide

/-- Claim C1 (amended): only the delay axis has an empty-range
substitution, and it substitutes the single-element list `[0]` (not
`[delay_start]`), so an active delay axis always contributes at least one
level; the voltage and pulse-width axes are exactly their range lists,
which are empty when `end < start`, making the total point count zero. -/
theorem grid_empty_range_substitution (cfg : SweepConfig)
    (h : cfg.axDelay = true) :
    sweepDelays cfg ≠ [] ∧
    (pyRange cfg.delay_start (cfg.delay_end + 1) (max 1 cfg.delay_step) = [] →
      sweepDelays cfg = [0]) ∧
    (cfg.axVoltage = true →
      sweepVoltages cfg =
        pyRange cfg.v_start (cfg.v_end + 1) (max 1 cfg.v_step)) ∧
    (cfg.axPulseWidth = true →
      sweepPulseWidths cfg =
        pyRange cfg.pw_start (cfg.pw_end + 1) (max 1 cfg.pw_step)) := by
  refine ⟨?_, ?_, ?_, ?_⟩
  · unfold sweepDelays
    rw [h]
    split
    · by_cases hd :
        pyRange cfg.delay_start (cfg.delay_end + 1) (1 ⊔ cfg.delay_step) = []
      · simp [hd]
      · simp [hd]
    · simp_all
  · intro he
    unfold sweepDelays
    rw [h]
    simp [he]
  · intro hv
    unfold sweepVoltages
    rw [hv]
    simp
  · intro hp
    unfold sweepPulseWidths
    rw [hp]
    simp

/-- Witness for the amended C1 at a delay-active configuration with an
empty delay range and active voltage axis. -/
theorem grid_empty_range_substitution_witness :
    (sweepDelays { cexCfgDelay with axVoltage := true } ≠ [] ∧
      sweepDelays { cexCfgDelay with axVoltage := true } = [0]) ∧
    sweepVoltages { cexCfgDelay with axVoltage := true } =
      pyRange 300 301 50 := by
  have h := grid_empty_range_substitution
    { cexCfgDelay with axVoltage := true } (by decide)
  exact ⟨⟨h.1, h.2.1 (by decide)⟩, h.2.2.1 (by decide)⟩

/-! ## Claim C6 — the trial classifier -/

/-- Claim C6: a trial is classified Glitch iff the baseline is present and
non-empty, the observed value is non-empty, and the two differ as exact
strings; in every other case it is classified Normal (`classify` is the
embedded `if baseline_ct and ct and ct != baseline_ct` test, `true`
standing for Glitch and `false` for Normal). -/
theorem classify_glitch_iff (b : Option String) (ct : String) :
    classify b ct = true ↔
      ∃ s, b = some s ∧ s ≠ "" ∧ ct ≠ "" ∧ ct ≠ s := by
  cases b with
  | none => simp [classify]
  | some s =>
    simp only [classify, Bool.and_eq_true, decide_eq_true_eq, ne_eq,
      Option.some.injEq]
    constructor
    · rintro ⟨⟨hs, hct⟩, hne⟩
      exact ⟨s, rfl, by simpa using hs, by simpa using hct, by simpa using hne⟩
    · rintro ⟨t, rfl, hs, hct, hne⟩
      exact ⟨⟨by simpa using hs, by simpa using hct⟩, by simpa using hne⟩

/-! ## Engine helper lemmas -/

theorem resultEvents_append (a b : List Event) :
    resultEvents (a ++ b) = resultEvents a ++ resultEvents b := by
  unfold resultEvents
  exact List.filterMap_append a b _

theorem resetRecover_spec (env : Env) (v pw d : Int) (pi : Nat)
    (s : EngState) :
    (resetRecover env v pw d pi s).1 = tryClearAndArm (env.armAttempt s.armIdx) ∧
    (resetRecover env v pw d pi s).2.resetCount = s.resetCount + 1 ∧
    (resetRecover env v pw d pi s).2.setupIdx = s.setupIdx + 1 ∧
    (resetRecover env v pw d pi s).2.armIdx = s.armIdx + 1 ∧
    (resetRecover env v pw d pi s).2.results = s.results ∧
    resultEvents (resetRecover env v pw d pi s).2.events =
      resultEvents s.events ∧
    Event.resetLog (s.resetCount + 1) v pw d (pi + 1) ∈
      (resetRecover env v pw d pi s).2.events := by
  unfold resetRecover
  simp only [emit]
  cases hm : setupTargetMode (env.setupStream s.setupIdx) with
  | none =>
    simp [hm, resultEvents_append, resultEvents]
  | some b =>
    by_cases hb : b = ""
    · simp [hm, hb, resultEvents_append, resultEvents]
    · simp [hm, hb, resultEvents_append, resultEvents]

/-- Equation: the exchange returned `None` — the error branch. -/
theorem trialStep_eq_none (env : Env) (v pw d : Int) (pi : Nat)
    (c : TrialCounters) (s : EngState)
    (h : targetExchange (env.trialStream s.trialIdx) = none) :
    trialStep env v pw d pi c s =
      .cont { c with error := c.error + 1 }
        { s with trialIdx := s.trialIdx + 1 } := by
  unfold trialStep
  dsimp only
  rw [h]

/-- Equation: the exchange returned a truthy `_reset` — the reset branch. -/
theorem trialStep_eq_reset (env : Env) (v pw d : Int) (pi : Nat)
    (c : TrialCounters) (s : EngState) (resp : PyDict)
    (h1 : targetExchange (env.trialStream s.trialIdx) = some resp)
    (h2 : pyTruthy (pyGet resp "_reset") = true) :
    trialStep env v pw d pi c s =
      (if (resetRecover env v pw d pi { s with trialIdx := s.trialIdx + 1 }).1
       then .cont { c with reset := c.reset + 1 }
         (resetRecover env v pw d pi { s with trialIdx := s.trialIdx + 1 }).2
       else .brk { c with reset := c.reset + 1 }
         (resetRecover env v pw d pi { s with trialIdx := s.trialIdx + 1 }).2) := by
  unfold trialStep
  dsimp only
  rw [h1]
  simp [h2]

/-- Equation: a non-reset response — the classification branch. -/
theorem trialStep_eq_classify (env : Env) (v pw d : Int) (pi : Nat)
    (c : TrialCounters) (s : EngState) (resp : PyDict)
    (h1 : targetExchange (env.trialStream s.trialIdx) = some resp)
    (h2 : pyTruthy (pyGet resp "_reset") = false) :
    trialStep env v pw d pi c s =
      (if classify s.baseline (ctOf resp)
       then .cont { c with glitch := c.glitch + 1, last_ct := ctOf resp }
         { s with trialIdx := s.trialIdx + 1 }
       else .cont { c with normal := c.normal + 1, last_ct := ctOf resp }
         { s with trialIdx := s.trialIdx + 1 }) := by
  unfold trialStep
  dsimp only
  rw [h1]
  simp [h2]

theorem trialStep_counterSum (env : Env) (v pw d : Int) (pi : Nat)
    (c : TrialCounters) (s : EngState) :
    counterSum (trialStep env v pw d pi c s).counters = counterSum c + 1 := by
  cases hx : targetExchange (env.trialStream s.trialIdx) with
  | none =>
    rw [trialStep_eq_none env v pw d pi c s hx]
    simp only [TrialStepOut.counters, counterSum]
    omega
  | some resp =>
    cases hr : pyTruthy (pyGet resp "_reset") with
    | true =>
      rw [trialStep_eq_reset env v pw d pi c s resp hx hr]
      split <;> (simp only [TrialStepOut.counters, counterSum]; omega)
    | false =>
      rw [trialStep_eq_classify env v pw d pi c s resp hx hr]
      split <;> (simp only [TrialStepOut.counters, counterSum]; omega)

theorem trialStep_results (env : Env) (v pw d : Int) (pi : Nat)
    (c : TrialCounters) (s : EngState) :
    (trialStep env v pw d pi c s).state.results = s.results := by
  cases hx : targetExchange (env.trialStream s.trialIdx) with
  | none =>
    rw [trialStep_eq_none env v pw d pi c s hx]
    rfl
  | some resp =>
    cases hr : pyTruthy (pyGet resp "_reset") with
    | true =>
      rw [trialStep_eq_reset env v pw d pi c s resp hx hr]
      have h := (resetRecover_spec env v pw d pi
        { s with trialIdx := s.trialIdx + 1 }).2.2.2.2.1
      split <;> simpa [TrialStepOut.state] using h
    | false =>
      rw [trialStep_eq_classify env v pw d pi c s resp hx hr]
      split <;> rfl

theorem trialStep_revents (env : Env) (v pw d : Int) (pi : Nat)
    (c : TrialCounters) (s : EngState) :
    resultEvents (trialStep env v pw d pi c s).state.events =
      resultEvents s.events := by
  cases hx : targetExchange (env.trialStream s.trialIdx) with
  | none =>
    rw [trialStep_eq_none env v pw d pi c s hx]
    rfl
  | some resp =>
    cases hr : pyTruthy (pyGet resp "_reset") with
    | true =>
      rw [trialStep_eq_reset env v pw d pi c s resp hx hr]
      have h := (resetRecover_spec env v pw d pi
        { s with trialIdx := s.trialIdx + 1 }).2.2.2.2.2.1
      split <;> simpa [TrialStepOut.state] using h
    | false =>
      rw [trialStep_eq_classify env v pw d pi c s resp hx hr]
      split <;> rfl

/-- Equation: a true stop flag at the top of a pulse-loop iteration breaks
the loop with the counters accumulated so far. -/
theorem trialLoop_succ_stop (env : Env) (v pw d : Int) (rem pi : Nat)
    (c : TrialCounters) (s : EngState)
    (h : stopFlag env s.checkIdx = true) :
    trialLoop env v pw d (rem + 1) pi c s = (c, (readStop env s).2) := by
  conv_lhs => rw [trialLoop]
  dsimp only [readStop]
  rw [h]
  simp

/-- Equation: a false stop flag runs the trial body and dispatches on its
outcome. -/
theorem trialLoop_succ_go (env : Env) (v pw d : Int) (rem pi : Nat)
    (c : TrialCounters) (s : EngState)
    (h : stopFlag env s.checkIdx = false) :
    trialLoop env v pw d (rem + 1) pi c s =
      (match trialStep env v pw d pi c (readStop env s).2 with
       | .cont c1 s2 => trialLoop env v pw d rem (pi + 1) c1 s2
       | .brk c1 s2 => (c1, s2)) := by
  conv_lhs => rw [trialLoop]
  dsimp only [readStop]
  rw [h]
  simp only [Bool.false_eq_true, if_false]

theorem trialLoop_counterSum (env : Env) (v pw d : Int) :
    ∀ (rem pi : Nat) (c : TrialCounters) (s : EngState),
      counterSum (trialLoop env v pw d rem pi c s).1 ≤ counterSum c + rem := by
  intro rem
  induction rem with
  | zero => intro pi c s; simp [trialLoop]
  | succ n ih =>
    intro pi c s
    cases hstop : stopFlag env s.checkIdx with
    | true =>
      rw [trialLoop_succ_stop env v pw d n pi c s hstop]
      dsimp only
      omega
    | false =>
      rw [trialLoop_succ_go env v pw d n pi c s hstop]
      have hsum := trialStep_counterSum env v pw d pi c (readStop env s).2
      cases hts : trialStep env v pw d pi c (readStop env s).2 with
      | cont c1 s2 =>
        rw [hts] at hsum
        simp only [TrialStepOut.counters] at hsum
        dsimp only
        have := ih (pi + 1) c1 s2
        omega
      | brk c1 s2 =>
        rw [hts] at hsum
        simp only [TrialStepOut.counters] at hsum
        dsimp only
        omega

theorem trialLoop_results (env : Env) (v pw d : Int) :
    ∀ (rem pi : Nat) (c : TrialCounters) (s : EngState),
      (trialLoop env v pw d rem pi c s).2.results = s.results := by
  intro rem
  induction rem with
  | zero => intro pi c s; simp [trialLoop]
  | succ n ih =>
    intro pi c s
    cases hstop : stopFlag env s.checkIdx with
    | true =>
      rw [trialLoop_succ_stop env v pw d n pi c s hstop]
      dsimp only [readStop]
    | false =>
      rw [trialLoop_succ_go env v pw d n pi c s hstop]
      have hr := trialStep_results env v pw d pi c (readStop env s).2
      cases hts : trialStep env v pw d pi c (readStop env s).2 with
      | cont c1 s2 =>
        rw [hts] at hr
        simp only [TrialStepOut.state] at hr
        dsimp only
        rw [ih (pi + 1) c1 s2, hr]
        dsimp only [readStop]
      | brk c1 s2 =>
        rw [hts] at hr
        simp only [TrialStepOut.state] at hr
        dsimp only
        rw [hr]
        dsimp only [readStop]

theorem trialLoop_revents (env : Env) (v pw d : Int) :
    ∀ (rem pi : Nat) (c : TrialCounters) (s : EngState),
      resultEvents (trialLoop env v pw d rem pi c s).2.events =
        resultEvents s.events := by
  intro rem
  induction rem with
  | zero => intro pi c s; simp [trialLoop]
  | succ n ih =>
    intro pi c s
    cases hstop : stopFlag env s.checkIdx with
    | true =>
      rw [trialLoop_succ_stop env v pw d n pi c s hstop]
      dsimp only [readStop]
    | false =>
      rw [trialLoop_succ_go env v pw d n pi c s hstop]
      have hr := trialStep_revents env v pw d pi c (readStop env s).2
      cases hts : trialStep env v pw d pi c (readStop env s).2 with
      | cont c1 s2 =>
        rw [hts] at hr
        simp only [TrialStepOut.state] at hr
        dsimp only
        rw [ih (pi + 1) c1 s2, hr]
        dsimp only [readStop]
      | brk c1 s2 =>
        rw [hts] at hr
        simp only [TrialStepOut.state] at hr
        dsimp only
        rw [hr]
        dsimp only [readStop]

/-! ## Point-level and loop-level lemmas -/

theorem pointFire_spec (env : Env) (nP total : Nat) (v pw d : Int)
    (s : EngState) :
    (pointFire env nP total v pw d s).results =
      s.results ++ [mkPointResult v pw d
        (trialLoop env v pw d nP 0 zeroCounters s).1
        (trialLoop env v pw d nP 0 zeroCounters s).2.baseline] ∧
    resultEvents (pointFire env nP total v pw d s).events =
      resultEvents s.events ++ [mkPointResult v pw d
        (trialLoop env v pw d nP 0 zeroCounters s).1
        (trialLoop env v pw d nP 0 zeroCounters s).2.baseline] ∧
    Event.result (mkPointResult v pw d
        (trialLoop env v pw d nP 0 zeroCounters s).1
        (trialLoop env v pw d nP 0 zeroCounters s).2.baseline) ∈
      (pointFire env nP total v pw d s).events := by
  unfold pointFire
  dsimp only [emit]
  refine ⟨?_, ?_, ?_⟩
  · rw [trialLoop_results env v pw d nP 0 zeroCounters s]
  · rw [resultEvents_append, resultEvents_append,
      trialLoop_revents env v pw d nP 0 zeroCounters s]
    simp [resultEvents]
  · simp

theorem pointBody_cases (env : Env) (nP total : Nat) (v pw d : Int)
    (s : EngState) :
    ((pointBody env nP total v pw d s).results = s.results ∧
      resultEvents (pointBody env nP total v pw d s).events =
        resultEvents s.events) ∨
    ∃ sPre, pointBody env nP total v pw d s = pointFire env nP total v pw d sPre ∧
      sPre.results = s.results ∧
      resultEvents sPre.events = resultEvents s.events := by
  unfold pointBody
  dsimp only [emit]
  cases hp : env.paramOutcome s.paramIdx with
  | resetExc => left; exact ⟨rfl, by simp [resultEvents_append, resultEvents]⟩
  | err => left; exact ⟨rfl, by simp [resultEvents_append, resultEvents]⟩
  | ok =>
    dsimp only
    by_cases htr : (decide (0 < d) && !env.hasTriggerOffset &&
        !s.warnedNoTrigger) = true
    · rw [if_pos htr]
      by_cases ha : tryClearAndArm (env.armAttempt s.armIdx) = true
      · rw [ha, if_neg (by simp)]
        right
        exact ⟨_, rfl, rfl, by simp [resultEvents_append, resultEvents]⟩
      · rw [Bool.not_eq_true] at ha
        rw [ha, if_pos (by simp)]
        left
        exact ⟨rfl, by simp [resultEvents_append, resultEvents]⟩
    · rw [if_neg htr]
      by_cases ha : tryClearAndArm (env.armAttempt s.armIdx) = true
      · rw [ha, if_neg (by simp)]
        right
        exact ⟨_, rfl, rfl, by simp [resultEvents_append, resultEvents]⟩
      · rw [Bool.not_eq_true] at ha
        rw [ha, if_pos (by simp)]
        left
        exact ⟨rfl, by simp [resultEvents_append, resultEvents]⟩

theorem pointBody_run (env : Env) (nP total : Nat) (v pw d : Int)
    (s : EngState)
    (hp : env.paramOutcome s.paramIdx = ParamOut.ok)
    (ha : tryClearAndArm (env.armAttempt s.armIdx) = true) :
    ∃ sPre, pointBody env nP total v pw d s = pointFire env nP total v pw d sPre ∧
      sPre.results = s.results ∧
      resultEvents sPre.events = resultEvents s.events := by
  unfold pointBody
  dsimp only [emit]
  rw [hp]
  dsimp only
  by_cases htr : (decide (0 < d) && !env.hasTriggerOffset &&
      !s.warnedNoTrigger) = true
  · rw [if_pos htr, ha, if_neg (by simp)]
    exact ⟨_, rfl, rfl, by simp [resultEvents_append, resultEvents]⟩
  · rw [if_neg htr, ha, if_neg (by simp)]
    exact ⟨_, rfl, rfl, by simp [resultEvents_append, resultEvents]⟩

/-- Equation: the innermost loop checks the stop flag at the top of every
iteration and breaks when it is set. -/
theorem delayLoop_cons (env : Env) (nP total : Nat) (v pw d : Int)
    (rest : List Int) (s : EngState) :
    delayLoop env nP total v pw (d :: rest) s =
      (if stopFlag env s.checkIdx then { s with checkIdx := s.checkIdx + 1 }
       else delayLoop env nP total v pw rest
         (pointBody env nP total v pw d { s with checkIdx := s.checkIdx + 1 })) := by
  conv_lhs => rw [delayLoop]
  dsimp only [readStop]

theorem pwLoop_cons (env : Env) (nP total : Nat) (v pw : Int)
    (ds : List Int) (rest : List Int) (s : EngState) :
    pwLoop env nP total v ds (pw :: rest) s =
      (if stopFlag env s.checkIdx then { s with checkIdx := s.checkIdx + 1 }
       else pwLoop env nP total v ds rest
         (delayLoop env nP total v pw ds { s with checkIdx := s.checkIdx + 1 })) := by
  conv_lhs => rw [pwLoop]
  dsimp only [readStop]

theorem vLoop_cons (env : Env) (nP total : Nat) (v : Int)
    (pws ds : List Int) (rest : List Int) (s : EngState) :
    vLoop env nP total pws ds (v :: rest) s =
      (if stopFlag env s.checkIdx then { s with checkIdx := s.checkIdx + 1 }
       else vLoop env nP total pws ds rest
         (pwLoop env nP total v ds pws { s with checkIdx := s.checkIdx + 1 })) := by
  conv_lhs => rw [vLoop]
  dsimp only [readStop]

theorem delayLoop_pres (env : Env) (nP total : Nat) (v pw : Int)
    (Q : EngState → Prop)
    (hpb : ∀ d s, Q s → Q (pointBody env nP total v pw d s))
    (hrs : ∀ s, Q s → Q { s with checkIdx := s.checkIdx + 1 }) :
    ∀ (ds : List Int) (s : EngState), Q s →
      Q (delayLoop env nP total v pw ds s) := by
  intro ds
  induction ds with
  | nil => intro s hq; simpa [delayLoop] using hq
  | cons d rest ih =>
    intro s hq
    rw [delayLoop_cons]
    split
    · exact hrs s hq
    · exact ih _ (hpb d _ (hrs s hq))

theorem pwLoop_pres (env : Env) (nP total : Nat) (v : Int) (ds : List Int)
    (Q : EngState → Prop)
    (hpb : ∀ pw d s, Q s → Q (pointBody env nP total v pw d s))
    (hrs : ∀ s, Q s → Q { s with checkIdx := s.checkIdx + 1 }) :
    ∀ (pws : List Int) (s : EngState), Q s →
      Q (pwLoop env nP total v ds pws s) := by
  intro pws
  induction pws with
  | nil => intro s hq; simpa [pwLoop] using hq
  | cons pw rest ih =>
    intro s hq
    rw [pwLoop_cons]
    split
    · exact hrs s hq
    · exact ih _ (delayLoop_pres env nP total v pw Q (hpb pw) hrs ds _
        (hrs s hq))

theorem vLoop_pres (env : Env) (nP total : Nat) (pws ds : List Int)
    (Q : EngState → Prop)
    (hpb : ∀ v pw d s, Q s → Q (pointBody env nP total v pw d s))
    (hrs : ∀ s, Q s → Q { s with checkIdx := s.checkIdx + 1 }) :
    ∀ (vs : List Int) (s : EngState), Q s →
      Q (vLoop env nP total pws ds vs s) := by
  intro vs
  induction vs with
  | nil => intro s hq; simpa [vLoop] using hq
  | cons v rest ih =>
    intro s hq
    rw [vLoop_cons]
    split
    · exact hrs s hq
    · exact ih _ (pwLoop_pres env nP total v ds Q (hpb v) hrs pws _
        (hrs s hq))

theorem finalize_fields (env : Env) (total : Nat) (s : EngState) :
    (finalize env total s).events = s.events ++ [Event.disarm,
      Event.finished (if stopFlag env s.checkIdx then "STOPPED" else "COMPLETE")
        s.step total ((s.results.map (fun r => r.glitches)).sum)
        ((s.results.filter (fun r => 0 < r.glitches)).length)
        ((s.results.map (fun r => r.resets)).sum)] ∧
    (finalize env total s).results = s.results ∧
    (finalize env total s).checkIdx = s.checkIdx + 1 ∧
    (finalize env total s).step = s.step := by
  unfold finalize
  dsimp only [emit, readStop]
  refine ⟨?_, rfl, rfl, rfl⟩
  simp

theorem startEntry_clean (env : Env) :
    (startEntry env).results = [] ∧
      resultEvents (startEntry env).events = [] := by
  unfold startEntry
  dsimp only [emit, readStop, initState]
  cases setupTargetMode (env.setupStream 0) with
  | none =>
    by_cases h : stopFlag env 0 = true
    · simp [h, resultEvents]
    · rw [Bool.not_eq_true] at h
      simp [h, resultEvents]
  | some b => exact ⟨rfl, rfl⟩

theorem startSweep_eq_run (env : Env) (cfg : SweepConfig)
    (hso : env.serialOpen = true) :
    startSweep env cfg =
      finalize env (sweepTotal cfg)
        (vLoop env cfg.pulses_per_point (sweepTotal cfg)
          (sweepPulseWidths cfg) (sweepDelays cfg) (sweepVoltages cfg)
          (startEntry env)) := by
  unfold startSweep
  rw [hso]
  rfl

/-! ## Claim C9 — counter invariant of every emitted PointResult -/

/-- Claim C9: every `PointResult` a run emits satisfies
`glitches + errors + normal + resets = total` and
`total <= pulsesPerPoint`: each pulse-loop iteration increments exactly one
of the four counters and the loop runs at most `pulsesPerPoint` times. -/
theorem point_counters_invariant (env : Env) (cfg : SweepConfig) :
    ∀ r ∈ (startSweep env cfg).results,
      r.glitches + r.errors + r.normal + r.resets = r.total ∧
      r.total ≤ cfg.pulses_per_point := by
  set nP := cfg.pulses_per_point with hnP
  set Q : EngState → Prop := fun s => ∀ x ∈ s.results,
    x.glitches + x.errors + x.normal + x.resets = x.total ∧
    x.total ≤ nP with hQ
  intro r hr
  by_cases hso : env.serialOpen = true
  · rw [startSweep_eq_run env cfg hso,
      (finalize_fields env (sweepTotal cfg) _).2.1] at hr
    have hpb : ∀ v pw d s, Q s →
        Q (pointBody env nP (sweepTotal cfg) v pw d s) := by
      intro v pw d s hq x hx
      rcases pointBody_cases env nP (sweepTotal cfg) v pw d s with
        ⟨hres, -⟩ | ⟨sPre, heq, hres, -⟩
      · rw [hres] at hx
        exact hq x hx
      · rw [heq, (pointFire_spec env nP (sweepTotal cfg) v pw d sPre).1,
          hres] at hx
        rcases List.mem_append.mp hx with hx | hx
        · exact hq x hx
        · have hxeq := List.mem_singleton.mp hx
          subst hxeq
          have hbound :=
            trialLoop_counterSum env v pw d nP 0 zeroCounters sPre
          constructor
          · rfl
          · simpa [mkPointResult, counterSum, zeroCounters] using hbound
    have hrs : ∀ s, Q s → Q { s with checkIdx := s.checkIdx + 1 } :=
      fun s hq => hq
    have hentry : Q (startEntry env) := by
      intro x hx
      rw [(startEntry_clean env).1] at hx
      simp at hx
    exact vLoop_pres env nP (sweepTotal cfg) (sweepPulseWidths cfg)
      (sweepDelays cfg) Q hpb hrs (sweepVoltages cfg) (startEntry env)
      hentry r hr
  · rw [Bool.not_eq_true] at hso
    unfold startSweep at hr
    rw [hso] at hr
    simp [emit, initState] at hr

/-- Witness for C9: the single emitted point of a 1-point, 2-pulse run in
which both trials time out satisfies the counter invariant. -/
theorem point_counters_invariant_witness :
    (({ voltage := 300, pulse_width := 160, delay_us := 0, glitches := 0,
        errors := 2, normal := 0, resets := 0, total := 2,
        baseline_ct := "AABBCC", last_ct := "", rate := "0.0%" } :
        PointResult) ∈ (startSweep wEnvErr wCfgOne).results) ∧
    ((0 : Nat) + 2 + 0 + 0 = 2 ∧ (2 : Nat) ≤ wCfgOne.pulses_per_point) := by
  refine ⟨?_, ?_⟩
  · decide
  · exact point_counters_invariant wEnvErr wCfgOne
      { voltage := 300, pulse_width := 160, delay_us := 0, glitches := 0,
        errors := 2, normal := 0, resets := 0, total := 2,
        baseline_ct := "AABBCC", last_ct := "", rate := "0.0%" } (by decide)

/-! ## Claims C7 and C10 — reset handling in the trial loop -/

theorem trialStep_reset_spec (env : Env) (v pw d : Int) (pi : Nat)
    (c : TrialCounters) (s : EngState) (resp : PyDict)
    (h1 : targetExchange (env.trialStream s.trialIdx) = some resp)
    (h2 : pyTruthy (pyGet resp "_reset") = true) :
    ∃ s1,
      ((trialStep env v pw d pi c s =
          .cont { c with reset := c.reset + 1 } s1 ∧
        tryClearAndArm (env.armAttempt s.armIdx) = true) ∨
       (trialStep env v pw d pi c s =
          .brk { c with reset := c.reset + 1 } s1 ∧
        tryClearAndArm (env.armAttempt s.armIdx) = false)) ∧
      s1.resetCount = s.resetCount + 1 ∧
      s1.setupIdx = s.setupIdx + 1 ∧
      s1.armIdx = s.armIdx + 1 ∧
      Event.resetLog (s.resetCount + 1) v pw d (pi + 1) ∈ s1.events := by
  rw [trialStep_eq_reset env v pw d pi c s resp h1 h2]
  obtain ⟨harm, hrc, hsi, hai, -, -, hmem⟩ :=
    resetRecover_spec env v pw d pi { s with trialIdx := s.trialIdx + 1 }
  refine ⟨(resetRecover env v pw d pi
    { s with trialIdx := s.trialIdx + 1 }).2, ?_, hrc, hsi, hai, hmem⟩
  by_cases hok : (resetRecover env v pw d pi
      { s with trialIdx := s.trialIdx + 1 }).1 = true
  · left
    exact ⟨by rw [if_pos hok], by rw [← harm]; exact hok⟩
  · rw [Bool.not_eq_true] at hok
    right
    refine ⟨by rw [if_neg (by simp [hok])], by rw [← harm]; exact hok⟩

/-- Claim C7: when a trial's exchange yields a reset indication, the
engine increments the point's reset counter and the run's cumulative
reset counter, emits the reset notification, re-runs the target baseline
step (one more setup exchange is consumed) and attempts clear-and-arm
again; if that clear-and-arm fails the pulse loop breaks immediately,
abandoning the remaining trials, yet the point body still emits exactly
one `PointResult` carrying the counters accumulated so far. -/
theorem trial_reset_recovery :
    (∀ (env : Env) (v pw d : Int) (pi : Nat) (c : TrialCounters)
        (s : EngState) (resp : PyDict),
      targetExchange (env.trialStream s.trialIdx) = some resp →
      pyTruthy (pyGet resp "_reset") = true →
      ∃ s1,
        ((trialStep env v pw d pi c s =
            .cont { c with reset := c.reset + 1 } s1 ∧
          tryClearAndArm (env.armAttempt s.armIdx) = true) ∨
         (trialStep env v pw d pi c s =
            .brk { c with reset := c.reset + 1 } s1 ∧
          tryClearAndArm (env.armAttempt s.armIdx) = false)) ∧
        s1.resetCount = s.resetCount + 1 ∧
        s1.setupIdx = s.setupIdx + 1 ∧
        s1.armIdx = s.armIdx + 1 ∧
        Event.resetLog (s.resetCount + 1) v pw d (pi + 1) ∈ s1.events) ∧
    (∀ (env : Env) (v pw d : Int) (rem pi : Nat) (c c1 : TrialCounters)
        (s s1 : EngState),
      stopFlag env s.checkIdx = false →
      trialStep env v pw d pi c (readStop env s).2 = .brk c1 s1 →
      trialLoop env v pw d (rem + 1) pi c s = (c1, s1)) ∧
    (∀ (env : Env) (nP total : Nat) (v pw d : Int) (s : EngState),
      env.paramOutcome s.paramIdx = ParamOut.ok →
      tryClearAndArm (env.armAttempt s.armIdx) = true →
      ∃ sPre,
        pointBody env nP total v pw d s = pointFire env nP total v pw d sPre ∧
        sPre.results = s.results ∧
        (pointBody env nP total v pw d s).results = s.results ++
          [mkPointResult v pw d
            (trialLoop env v pw d nP 0 zeroCounters sPre).1
            (trialLoop env v pw d nP 0 zeroCounters sPre).2.baseline] ∧
        Event.result (mkPointResult v pw d
            (trialLoop env v pw d nP 0 zeroCounters sPre).1
            (trialLoop env v pw d nP 0 zeroCounters sPre).2.baseline) ∈
          (pointBody env nP total v pw d s).events) := by
  refine ⟨?_, ?_, ?_⟩
  · intro env v pw d pi c s resp h1 h2
    exact trialStep_reset_spec env v pw d pi c s resp h1 h2
  · intro env v pw d rem pi c c1 s s1 hstop hts
    rw [trialLoop_succ_go env v pw d rem pi c s hstop, hts]
  · intro env nP total v pw d s hp ha
    obtain ⟨sPre, heq, hres, -⟩ := pointBody_run env nP total v pw d s hp ha
    refine ⟨sPre, heq, hres, ?_, ?_⟩
    · rw [heq, (pointFire_spec env nP total v pw d sPre).1, hres]
    · rw [heq]
      exact (pointFire_spec env nP total v pw d sPre).2.2

/-- Witness for C7 at an environment whose trial exchange hits the reset
marker and whose post-reset clear-and-arm raises `Reset_Exception`. -/
theorem trial_reset_recovery_witness :
    (∃ s1,
      ((trialStep wEnvReset 300 160 0 0 zeroCounters wStateArm1 =
          .cont { zeroCounters with reset := zeroCounters.reset + 1 } s1 ∧
        tryClearAndArm (wEnvReset.armAttempt wStateArm1.armIdx) = true) ∨
       (trialStep wEnvReset 300 160 0 0 zeroCounters wStateArm1 =
          .brk { zeroCounters with reset := zeroCounters.reset + 1 } s1 ∧
        tryClearAndArm (wEnvReset.armAttempt wStateArm1.armIdx) = false)) ∧
      s1.resetCount = wStateArm1.resetCount + 1 ∧
      s1.setupIdx = wStateArm1.setupIdx + 1 ∧
      s1.armIdx = wStateArm1.armIdx + 1 ∧
      Event.resetLog (wStateArm1.resetCount + 1) 300 160 0 (0 + 1) ∈
        s1.events) ∧
    (∃ c1 s1,
      trialStep wEnvReset 300 160 0 0 zeroCounters
        (readStop wEnvReset wStateArm1).2 = .brk c1 s1 ∧
      trialLoop wEnvReset 300 160 0 (2 + 1) 0 zeroCounters wStateArm1 =
        (c1, s1)) ∧
    (∃ sPre,
      pointBody wEnvReset 1 1 300 160 0 initState =
        pointFire wEnvReset 1 1 300 160 0 sPre ∧
      sPre.results = initState.results ∧
      (pointBody wEnvReset 1 1 300 160 0 initState).results =
        initState.results ++
          [mkPointResult 300 160 0
            (trialLoop wEnvReset 300 160 0 1 0 zeroCounters sPre).1
            (trialLoop wEnvReset 300 160 0 1 0 zeroCounters sPre).2.baseline] ∧
      Event.result (mkPointResult 300 160 0
          (trialLoop wEnvReset 300 160 0 1 0 zeroCounters sPre).1
          (trialLoop wEnvReset 300 160 0 1 0 zeroCounters sPre).2.baseline) ∈
        (pointBody wEnvReset 1 1 300 160 0 initState).events) := by
  refine ⟨?_, ?_, ?_⟩
  · exact trial_reset_recovery.1 wEnvReset 300 160 0 0 zeroCounters
      wStateArm1 resetDict (by decide) (by decide)
  · exact ⟨_, _, rfl, trial_reset_recovery.2.1 wEnvReset 300 160 0 2 0
      zeroCounters _ wStateArm1 _ (by decide) rfl⟩
  · exact trial_reset_recovery.2.2 wEnvReset 1 1 300 160 0 initState
      (by decide) (by decide)

/-- Claim C10: a DATA block carrying a literal `_reset:1` KEY:VALUE line —
with no reset marker anywhere in the stream — parses to a mapping whose
`_reset` entry is the truthy string `"1"`, and the engine's
`resp.get("_reset")` check therefore takes the reset branch for that
trial: reset counters incremented, baseline step re-run, clear-and-arm
re-attempted, exactly as for a genuine target reset. -/
theorem reset_key_collision (env : Env) (v pw d : Int) (pi : Nat)
    (c : TrialCounters) (s : EngState)
    (h : env.trialStream s.trialIdx = resetKeyStream) :
    (∀ l ∈ resetKeyStream,
      containsSubstr (pyStrip l) KW45_RESET_MARKER = false) ∧
    targetExchange resetKeyStream = some [("_reset", PyVal.str "1")] ∧
    ∃ s1,
      (trialStep env v pw d pi c s =
          .cont { c with reset := c.reset + 1 } s1 ∨
       trialStep env v pw d pi c s =
          .brk { c with reset := c.reset + 1 } s1) ∧
      s1.resetCount = s.resetCount + 1 ∧
      s1.setupIdx = s.setupIdx + 1 ∧
      s1.armIdx = s.armIdx + 1 ∧
      Event.resetLog (s.resetCount + 1) v pw d (pi + 1) ∈ s1.events := by
  refine ⟨by decide, by decide, ?_⟩
  have h1 : targetExchange (env.trialStream s.trialIdx) =
      some [("_reset", PyVal.str "1")] := by
    rw [h]
    decide
  obtain ⟨s1, hd, hrc, hsi, hai, hmem⟩ :=
    trialStep_reset_spec env v pw d pi c s [("_reset", PyVal.str "1")] h1
      (by decide)
  exact ⟨s1, by rcases hd with ⟨he, -⟩ | ⟨he, -⟩ <;> [left; right] <;>
    exact he, hrc, hsi, hai, hmem⟩

/-- Witness for C10 at the concrete environment whose every trial stream
is the `_reset:1` DATA block. -/
theorem reset_key_collision_witness :
    (∀ l ∈ resetKeyStream,
      containsSubstr (pyStrip l) KW45_RESET_MARKER = false) ∧
    targetExchange resetKeyStream = some [("_reset", PyVal.str "1")] ∧
    ∃ s1,
      (trialStep wEnvResetKey 300 160 0 0 zeroCounters initState =
          .cont { zeroCounters with reset := zeroCounters.reset + 1 } s1 ∨
       trialStep wEnvResetKey 300 160 0 0 zeroCounters initState =
          .brk { zeroCounters with reset := zeroCounters.reset + 1 } s1) ∧
      s1.resetCount = initState.resetCount + 1 ∧
      s1.setupIdx = initState.setupIdx + 1 ∧
      s1.armIdx = initState.armIdx + 1 ∧
      Event.resetLog (initState.resetCount + 1) 300 160 0 (0 + 1) ∈
        s1.events :=
  reset_key_collision wEnvResetKey 300 160 0 0 zeroCounters initState rfl

/-! ## Claim C8 — stop-request semantics -/

/-- Claim C8: (1) the `result_signal` emissions of any run are exactly the
accumulated `PointResult` list, in order — so when the run stops after k
aggregated points, exactly k result events were emitted; (2) every run
with an open serial link ends with a disarm attempt followed by the
terminal summary event, whose tag is `STOPPED` exactly when the stop flag
is observed set at the final read (in particular whenever the stop was
requested before that read) and whose payload is computed from the emitted
results; (3) a stop observed at the top of a pulse-loop iteration breaks
the loop with the trials already completed, which the point body then
aggregates and emits as an ordinary (possibly partial) `PointResult`;
(4) a stop observed at the top of a grid-loop iteration skips all further
points. -/
theorem sweep_stop_semantics :
    (∀ (env : Env) (cfg : SweepConfig),
      resultEvents (startSweep env cfg).events =
        (startSweep env cfg).results) ∧
    (∀ (env : Env) (cfg : SweepConfig), env.serialOpen = true →
      ∃ pre, (startSweep env cfg).events = pre ++ [Event.disarm,
        Event.finished
          (if stopFlag env ((startSweep env cfg).checkIdx - 1) then "STOPPED"
           else "COMPLETE")
          (startSweep env cfg).step (sweepTotal cfg)
          (((startSweep env cfg).results.map (fun r => r.glitches)).sum)
          (((startSweep env cfg).results.filter
            (fun r => 0 < r.glitches)).length)
          (((startSweep env cfg).results.map (fun r => r.resets)).sum)]) ∧
    (∀ (env : Env) (v pw d : Int) (rem pi : Nat) (c : TrialCounters)
        (s : EngState),
      stopFlag env s.checkIdx = true →
      trialLoop env v pw d (rem + 1) pi c s = (c, (readStop env s).2)) ∧
    (∀ (env : Env) (nP total : Nat) (v pw d : Int) (ds : List Int)
        (s : EngState),
      stopFlag env s.checkIdx = true →
      delayLoop env nP total v pw (d :: ds) s =
        { s with checkIdx := s.checkIdx + 1 }) := by
  have hpb : ∀ (env : Env) (nP total : Nat) (v pw d : Int) (s : EngState),
      resultEvents s.events = s.results →
      resultEvents (pointBody env nP total v pw d s).events =
        (pointBody env nP total v pw d s).results := by
    intro env nP total v pw d s hq
    rcases pointBody_cases env nP total v pw d s with
      ⟨hres, hev⟩ | ⟨sPre, heq, hres, hev⟩
    · rw [hres, hev, hq]
    · obtain ⟨hfr, hfe, -⟩ := pointFire_spec env nP total v pw d sPre
      rw [heq, hfr, hfe, hev, hres, hq]
  refine ⟨?_, ?_, ?_, ?_⟩
  · intro env cfg
    by_cases hso : env.serialOpen = true
    · rw [startSweep_eq_run env cfg hso]
      obtain ⟨hev, hres, -, -⟩ :=
        finalize_fields env (sweepTotal cfg)
          (vLoop env cfg.pulses_per_point (sweepTotal cfg)
            (sweepPulseWidths cfg) (sweepDelays cfg) (sweepVoltages cfg)
            (startEntry env))
      rw [hev, hres, resultEvents_append]
      have hloop : resultEvents (vLoop env cfg.pulses_per_point
          (sweepTotal cfg) (sweepPulseWidths cfg) (sweepDelays cfg)
          (sweepVoltages cfg) (startEntry env)).events =
          (vLoop env cfg.pulses_per_point (sweepTotal cfg)
            (sweepPulseWidths cfg) (sweepDelays cfg) (sweepVoltages cfg)
            (startEntry env)).results :=
        vLoop_pres env cfg.pulses_per_point (sweepTotal cfg)
          (sweepPulseWidths cfg) (sweepDelays cfg)
          (fun s => resultEvents s.events = s.results)
          (fun v pw d s hq => hpb env cfg.pulses_per_point (sweepTotal cfg)
            v pw d s hq)
          (fun s hq => hq) (sweepVoltages cfg) (startEntry env)
          (by
            show resultEvents (startEntry env).events =
              (startEntry env).results
            rw [(startEntry_clean env).1, (startEntry_clean env).2])
      rw [hloop]
      simp [resultEvents]
    · rw [Bool.not_eq_true] at hso
      unfold startSweep
      rw [hso]
      simp [emit, initState, resultEvents]
  · intro env cfg hso
    rw [startSweep_eq_run env cfg hso]
    obtain ⟨hev, hres, hchk, hstep⟩ :=
      finalize_fields env (sweepTotal cfg)
        (vLoop env cfg.pulses_per_point (sweepTotal cfg)
          (sweepPulseWidths cfg) (sweepDelays cfg) (sweepVoltages cfg)
          (startEntry env))
    refine ⟨(vLoop env cfg.pulses_per_point (sweepTotal cfg)
      (sweepPulseWidths cfg) (sweepDelays cfg) (sweepVoltages cfg)
      (startEntry env)).events, ?_⟩
    rw [hev, hres, hchk, hstep]
    simp
  · intro env v pw d rem pi c s h
    exact trialLoop_succ_stop env v pw d rem pi c s h
  · intro env nP total v pw d ds s h
    rw [delayLoop_cons, if_pos h]

/-- Witness for C8: the 6-point grid with stop requested so that it is
first observed right after the second point; exactly 2 results are
emitted, the terminal event is tagged STOPPED and follows a disarm. -/
theorem sweep_stop_semantics_witness :
    (resultEvents (startSweep wEnvStop wCfgSix).events =
      (startSweep wEnvStop wCfgSix).results) ∧
    (∃ pre, (startSweep wEnvStop wCfgSix).events = pre ++ [Event.disarm,
      Event.finished
        (if stopFlag wEnvStop ((startSweep wEnvStop wCfgSix).checkIdx - 1)
         then "STOPPED" else "COMPLETE")
        (startSweep wEnvStop wCfgSix).step (sweepTotal wCfgSix)
        (((startSweep wEnvStop wCfgSix).results.map
          (fun r => r.glitches)).sum)
        (((startSweep wEnvStop wCfgSix).results.filter
          (fun r => 0 < r.glitches)).length)
        (((startSweep wEnvStop wCfgSix).results.map
          (fun r => r.resets)).sum)]) ∧
    (trialLoop wEnvStop 1 1 0 (0 + 1) 0 zeroCounters
        { initState with checkIdx := 7 } =
      (zeroCounters,
        (readStop wEnvStop { initState with checkIdx := 7 }).2)) ∧
    (delayLoop wEnvStop 1 6 1 1 [0] { initState with checkIdx := 7 } =
      { initState with checkIdx := 8 }) ∧
    ((startSweep wEnvStop wCfgSix).results.length = 2 ∧
      sweepTotal wCfgSix = 6 ∧
      Event.finished "STOPPED" 2 6 0 0 0 ∈
        (startSweep wEnvStop wCfgSix).events) := by
  refine ⟨?_, ?_, ?_, ?_, ?_⟩
  · exact sweep_stop_semantics.1 wEnvStop wCfgSix
  · exact sweep_stop_semantics.2.1 wEnvStop wCfgSix rfl
  · exact sweep_stop_semantics.2.2.1 wEnvStop 1 1 0 0 0 zeroCounters
      { initState with checkIdx := 7 } (by decide)
  · exact sweep_stop_semantics.2.2.2 wEnvStop 1 6 1 1 0 []
      { initState with checkIdx := 7 } (by decide)
  · exact ⟨by decide, by decide, by decide⟩

end ChipShouter
